import Mathlib

/-!
# Verification of the growerlab/backend user module

A shallow embedding of the user-management and authentication module:
the user store (`user.go`), the login flow (`Login`, `validate`,
`buildSession`) and the pieces of the session and namespace stores they
touch.  The relational database is modelled as an explicit in-memory
`Store` value; each SQL statement becomes a pure function on `Store`.
The external SQL engine itself is out of scope (assumed correct), so
queries never fail on their own; where a claim is about failure of a
write inside the login transaction, the possible failure of the engine
is injected through an explicit `Faults` record, mirroring the `error`
return of `tx.Exec` / `tx.QueryRowx` in the Go source.
-/

deriving instance DecidableEq for Except

/-- Error kinds of the `errors` package as used by this module:
`NotFoundError`, `AccessDenied`, `InvalidParameterError` and the generic
wrapped SQL error. -/
inductive Err where
  | notFound
  | accessDenied
  | invalidParameter
  | sqlError
  deriving DecidableEq

/-- Owner type tag for namespaces; `namespace.TypeUser` in the Go source. -/
def TypeUser : Nat := 1

/-- A namespace row: owner id, owner type and path (spec §3). -/
structure Namespace where
  ownerID : Int
  nsType : Nat
  path : String
  deriving DecidableEq

/-- A user row.  Fields follow the `columns` list of `user.go`
(id, email, encrypted_password, username, name, public_email, created_at,
deleted_at, verified_at, last_login_at, last_login_ip, register_ip,
is_admin, namespace_id).  Nullable timestamps are `Option Int`.
`ns` is the private in-memory namespace reference that
`fillNamespaceInUsers` mutates (spec §4.4). -/
structure User where
  id : Int
  email : String
  encryptedPassword : String
  username : String
  name : String
  publicEmail : Bool
  createdAt : Int
  deletedAt : Option Int
  verifiedAt : Option Int
  lastLoginAt : Option Int
  lastLoginIP : Option String
  registerIP : String
  isAdmin : Bool
  namespaceID : Int
  ns : Option Namespace := none
  deriving DecidableEq

/-- A session row: owner user id, opaque token, client IP,
created/expired unix timestamps (spec §3). -/
structure Session where
  ownerID : Int
  token : String
  clientIP : String
  createdAt : Int
  expiredAt : Int
  deriving DecidableEq

/-- The relational store: the `user`, `session` and namespace tables.
Lists keep the rows in insertion order, the default order of the
underlying engine (spec §8.6). -/
structure Store where
  users : List User
  sessions : List Session
  namespaces : List Namespace
  deriving DecidableEq

/-- Modelled from the spec: the `NormalUser` squirrel condition is defined
outside this excerpt; the glossary says a normal user is "a user row not
soft-deleted", soft deletion being the nullable `deleted_at` timestamp. -/
def NormalUser (u : User) : Bool :=
  u.deletedAt.isNone

/-- Modelled from the spec: the `InactivateUser` squirrel condition is
defined outside this excerpt; activation "sets verified timestamp,
conditioned on currently inactive", and verified state is the nullable
`verified_at` timestamp, so an inactive user is one with `verified_at`
still null. -/
def InactivateUser (u : User) : Bool :=
  u.verifiedAt.isNone

/-- Modelled from the spec: `User.Verified` is defined outside this
excerpt; a verified account is "a user whose verification timestamp is
non-null" (glossary). -/
def User.Verified (u : User) : Bool :=
  u.verifiedAt.isSome

/-- `listUsersByCond`: SELECT ... FROM "user" WHERE cond AND NormalUser.
Row order is the engine's default order, i.e. insertion order. -/
def listUsersByCond (st : Store) (cond : User → Bool) : List User :=
  st.users.filter (fun u => cond u && NormalUser u)

/-- `getUser`: first row of `listUsersByCond`, or nil with a nil error when
there is none.  The SQL engine is out of scope, so the error component can
only be `Except.ok`. -/
def getUser (st : Store) (cond : User → Bool) : Except Err (Option User) :=
  Except.ok (listUsersByCond st cond).head?

/-- `GetUser`: lookup by id. -/
def GetUser (st : Store) (id : Int) : Except Err (Option User) :=
  getUser st (fun u => u.id == id)

/-- `GetUserByEmail`: lookup by email. -/
def GetUserByEmail (st : Store) (email : String) : Except Err (Option User) :=
  getUser st (fun u => u.email == email)

/-- `GetUserByUsername`: lookup by username. -/
def GetUserByUsername (st : Store) (username : String) : Except Err (Option User) :=
  getUser st (fun u => u.username == username)

/-- `ExistsEmailOrUsername`: when the username argument is non-empty, look
the username up and report true on a hit; otherwise fall through to the
same check on the email argument; false when neither hits. -/
def ExistsEmailOrUsername (st : Store) (username email : String) : Except Err Bool :=
  match (if 0 < username.length then getUser st (fun u => u.username == username)
         else Except.ok none) with
  | Except.error e => Except.error e
  | Except.ok (some _) => Except.ok true
  | Except.ok none =>
    match (if 0 < email.length then getUser st (fun u => u.email == email)
           else Except.ok none) with
    | Except.error e => Except.error e
    | Except.ok (some _) => Except.ok true
    | Except.ok none => Except.ok false

/-- The row transformation of `ActivateUser`'s UPDATE: set `verified_at`
to the current time on the rows matching `id = userID AND InactivateUser`. -/
def activateRow (userID : Int) (now : Int) (u : User) : User :=
  if u.id == userID && InactivateUser u then { u with verifiedAt := some now } else u

/-- `ActivateUser`: UPDATE "user" SET verified_at = now
WHERE id = userID AND InactivateUser.  `now` stands for `time.Now().Unix()`. -/
def ActivateUser (st : Store) (userID : Int) (now : Int) : Store :=
  { st with users := st.users.map (activateRow userID now) }

/-- `ListAllUsers`: SELECT ... WHERE NormalUser LIMIT per OFFSET page*per.
`page` and `per` are Go `uint64` values, so the offset product `page * per`
is computed in unsigned 64-bit arithmetic and wraps modulo 2^64. -/
def ListAllUsers (st : Store) (page per : Nat) : Except Err (List User) :=
  Except.ok (((st.users.filter NormalUser).drop ((page * per) % 2 ^ 64)).take per)

/-- The generic `update` helper: UPDATE "user" SET ... WHERE cond,
with the SET map represented by the row transformation it performs. -/
def update (st : Store) (cond : User → Bool) (setFields : User → User) : Store :=
  { st with users := st.users.map (fun u => if cond u then setFields u else u) }

/-- `UpdateLogin`: set `last_login_at` / `last_login_ip` on the row with the
given id.  `sqlFails` injects a failure of the engine executing the UPDATE
(the `tx.Exec` error return). -/
def UpdateLogin (st : Store) (userID : Int) (clientIP : String) (now : Int)
    (sqlFails : Bool) : Except Err Store :=
  if sqlFails then Except.error Err.sqlError
  else Except.ok (update st (fun u => u.id == userID)
    (fun u => { u with lastLoginAt := some now, lastLoginIP := some clientIP }))

/-- The join predicate of `GetUserByUserToken`: the user row joins some
session row on `session.token = userToken AND session.expired_at >= now
AND "user".id = session.owner_id`.  Note: no `NormalUser` filter here. -/
def tokenJoins (st : Store) (userToken : String) (now : Int) (u : User) : Bool :=
  st.sessions.any (fun s => s.token == userToken && now ≤ s.expiredAt && u.id == s.ownerID)

/-- `GetUserByUserToken`: join "user" with the session table on token
match and `expired_at >= now`, take the first joined user row, nil with a
nil error when there is none. -/
def GetUserByUserToken (st : Store) (userToken : String) (now : Int) :
    Except Err (Option User) :=
  Except.ok ((st.users.filter (tokenJoins st userToken now)).head?)

/-- Modelled from the spec: `namespace.ListNamespacesByOwner` is defined
outside this excerpt; §4.4 says it bulk-fetches the namespaces of a batch
of owner ids under an owner-type filter. -/
def ListNamespacesByOwner (st : Store) (nsType : Nat) (ownerIDs : List Int) :
    List Namespace :=
  st.namespaces.filter (fun n => n.nsType == nsType && ownerIDs.contains n.ownerID)

/-- One step of the fill loop of `fillNamespaceInUsers`: the Go statement
`userMap[n.OwnerID].ns = n` mutates, through the map of user pointers, the
last user row with that id (later map inserts overwrite earlier ones).
This sets `ns` on the first matching row of the reversed list. -/
def setNsFirst (users : List User) (n : Namespace) : List User :=
  match users with
  | [] => []
  | u :: rest =>
    if u.id == n.ownerID then { u with ns := some n } :: rest
    else u :: setNsFirst rest n

/-- `userMap[n.OwnerID].ns = n` on the original list order: mutate the last
row whose id is `n.OwnerID`. -/
def setNsLast (users : List User) (n : Namespace) : List User :=
  (setNsFirst users.reverse n).reverse

/-- The fill loop of `fillNamespaceInUsers`: for each fetched namespace,
write it into the mapped user.  When the owner id has no map entry,
`userMap[n.OwnerID]` is nil and the field write dereferences a nil
pointer: modelled as `none` (a runtime panic). -/
def fillLoop (users : List User) (nss : List Namespace) : Option (List User) :=
  match nss with
  | [] => some users
  | n :: rest =>
    if users.any (fun u => u.id == n.ownerID) then fillLoop (setNsLast users n) rest
    else none

/-- `fillNamespaceInUsers`: collect the user ids, bulk-fetch their
namespaces, and fill each into its owner's `ns` field through the id map. -/
def fillNamespaceInUsers (st : Store) (users : List User) : Option (List User) :=
  fillLoop users (ListNamespacesByOwner st TypeUser (users.map User.id))

/-- `ListAdminUsers`: the normal users with `is_admin`, enriched with their
namespaces. -/
def ListAdminUsers (st : Store) : Option (List User) :=
  fillNamespaceInUsers st (listUsersByCond st (fun u => u.isAdmin == true))

/-- `TokenExpiredTime = 24 * time.Hour * 30`, in seconds as produced by the
`.Unix()` conversion in `buildSession`. -/
def TokenExpiredTime : Int := 24 * 60 * 60 * 30

/-- The cookie field name, `tokenField` in the Go source. -/
def tokenField : String := "auth-user-token"

/-- An HTTP cookie as passed to gin's `Context.SetCookie`
(name, value, maxAge, path, domain, secure, httpOnly). -/
structure Cookie where
  cookieName : String
  value : String
  maxAge : Int
  cookiePath : String
  domain : String
  secure : Bool
  httpOnly : Bool
  deriving DecidableEq

/-- The slice of the gin request context the login flow touches: the
client IP, the request host, and the response cookies set so far. -/
structure GinContext where
  clientIP : String
  host : String
  cookies : List Cookie
  deriving DecidableEq

/-- `ctx.SetCookie`: append one cookie to the response. -/
def SetCookie (ctx : GinContext) (cookieName value : String) (maxAge : Int)
    (cookiePath domain : String) (secure httpOnly : Bool) : GinContext :=
  { ctx with cookies :=
      ctx.cookies ++ [⟨cookieName, value, maxAge, cookiePath, domain, secure, httpOnly⟩] }

/-- `LoginUserPayload`: the request body; `email` carries an email or a
username. -/
structure LoginUserPayload where
  email : String
  password : String
  deriving DecidableEq

/-- `UserLoginResult`: token, namespace path, name, email, public-email
flag. -/
structure UserLoginResult where
  token : String
  namespacePath : String
  resultName : String
  email : String
  publicEmail : Bool
  deriving DecidableEq

/-- Modelled from the spec: `pwd.ComparePassword` is an external
collaborator ("password hashing, assumed correct and external"), modelled
as comparison against an injective encoding of the password. -/
def ComparePassword (hashedPassword password : String) : Bool :=
  hashedPassword == "bcrypt$" ++ password

/-- Modelled from the spec: `User.Namespace` is defined outside this
excerpt; step 5 of the login flow fetches "the user's namespace", of which
there is one per (owner id, owner type) pair (spec §3). -/
def userNamespace (st : Store) (u : User) : Option Namespace :=
  st.namespaces.find? (fun n => n.ownerID == u.id && n.nsType == TypeUser)

/-- `strings.Contains(usernameOrEmail, "@")`: whether the identifier holds
an `@` character. -/
def containsAt (s : String) : Bool :=
  s.data.contains '@'

/-- The credential lookup of `validate`: by email when the identifier
contains an `@`, otherwise by username. -/
def loginLookup (st : Store) (usernameOrEmail : String) : Except Err (Option User) :=
  if containsAt usernameOrEmail then GetUserByEmail st usernameOrEmail
  else GetUserByUsername st usernameOrEmail

/-- `LoginUserPayload.validate`: resolve the identifier, then fail with
NotFound when no user matched, AccessDenied when the account is not
verified, InvalidParameter when the password comparison fails; otherwise
return the user. -/
def validate (st : Store) (usernameOrEmail password : String) : Except Err User :=
  match loginLookup st usernameOrEmail with
  | Except.error e => Except.error e
  | Except.ok none => Except.error Err.notFound
  | Except.ok (some user) =>
    if user.Verified = false then Except.error Err.accessDenied
    else if ComparePassword user.encryptedPassword password = false then
      Except.error Err.invalidParameter
    else Except.ok user

/-- `buildSession`: a fresh session for the user — the generated token,
the client IP, created now and expiring `TokenExpiredTime` later.
`token` stands for the `uuid.UUID()` call, `now` for `time.Now().Unix()`. -/
def buildSession (userID : Int) (clientIP : String) (token : String) (now : Int) :
    Session :=
  { ownerID := userID, token := token, clientIP := clientIP,
    createdAt := now, expiredAt := now + TokenExpiredTime }

/-- Modelled from the spec: `sessionModel.AddSession` inserts one session
row (§4.3); `sqlFails` injects a failure of the engine executing the
INSERT. -/
def AddSession (st : Store) (s : Session) (sqlFails : Bool) : Except Err Store :=
  if sqlFails then Except.error Err.sqlError
  else Except.ok { st with sessions := st.sessions ++ [s] }

/-- Failure injection for the SQL engine during the login transaction:
whether the last-login UPDATE and the session INSERT fail. -/
structure Faults where
  updateLoginFails : Bool
  addSessionFails : Bool
  deriving DecidableEq

/-- Modelled from the spec: `db.Transact` runs the body in a single
database transaction; on an error from the body every write of the body is
rolled back, on success they are committed (§4.2, §5). -/
def Transact {A : Type} (st : Store) (body : Store → Except Err (Store × A)) :
    Store × Except Err A :=
  match body st with
  | Except.ok (st2, a) => (st2, Except.ok a)
  | Except.error e => (st, Except.error e)

/-- The closure passed to `db.Transact` by `Login`: update the last login
metadata, insert the fresh session, build the response from the user and
the user's namespace, and set the token cookie
`SetCookie(tokenField, sess.Token, 0, "/", ctx.Request.Host, false, false)`.
The cookie write and the response value leave the closure only when it
succeeds, matching the early returns of the Go source. -/
def loginBody (ctx : GinContext) (user : User) (st0 : Store) (now : Int)
    (newToken : String) (f : Faults) (tx : Store) :
    Except Err (Store × GinContext × UserLoginResult) :=
  match UpdateLogin tx user.id ctx.clientIP now f.updateLoginFails with
  | Except.error e => Except.error e
  | Except.ok tx1 =>
    let sess := buildSession user.id ctx.clientIP newToken now
    match AddSession tx1 sess f.addSessionFails with
    | Except.error e => Except.error e
    | Except.ok tx2 =>
      let result : UserLoginResult :=
        { token := sess.token,
          namespacePath := ((userNamespace st0 user).map Namespace.path).getD "",
          resultName := user.name, email := user.email,
          publicEmail := user.publicEmail }
      let ctx2 := SetCookie ctx tokenField sess.token 0 "/" ctx.host false false
      Except.ok (tx2, ctx2, result)

/-- `Login`: validate the credentials, then run the last-login update, the
session insert, the response construction and the cookie write inside one
transaction.  Returns the final request context, the final store, and the
result or the error.  `now` stands for `time.Now().Unix()`, `newToken` for
`uuid.UUID()`. -/
def Login (ctx : GinContext) (st : Store) (req : LoginUserPayload) (now : Int)
    (newToken : String) (f : Faults) :
    GinContext × Store × Except Err UserLoginResult :=
  match validate st req.email req.password with
  | Except.error e => (ctx, st, Except.error e)
  | Except.ok user =>
    match Transact st (loginBody ctx user st now newToken f) with
    | (st2, Except.ok (ctx2, result)) => (ctx2, st2, Except.ok result)
    | (st2, Except.error e) => (ctx, st2, Except.error e)

/-- The credential field `validate` resolves the identifier against:
email when the identifier holds an `@`, username otherwise. -/
def credMatches (usernameOrEmail : String) (u : User) : Bool :=
  if containsAt usernameOrEmail then u.email == usernameOrEmail
  else u.username == usernameOrEmail

/-- The user `validate`'s lookup settles on: the first normal user row
matching the resolved credential field. -/
def lookedUpUser (st : Store) (usernameOrEmail : String) : Option User :=
  (st.users.filter (fun u => credMatches usernameOrEmail u && NormalUser u)).head?

/-! ## Concrete fixtures -/

/-- A namespace row owned by the fixture user. -/
def cNamespace : Namespace :=
  { ownerID := 1, nsType := TypeUser, path := "alice" }

/-- A normal, verified fixture user whose stored hash matches password
`pw`. -/
def cUser : User :=
  { id := 1, email := "a@x.y", encryptedPassword := "bcrypt$pw", username := "alice",
    name := "Alice", publicEmail := false, createdAt := 0, deletedAt := none,
    verifiedAt := some 10, lastLoginAt := none, lastLoginIP := none,
    registerIP := "1.2.3.4", isAdmin := true, namespaceID := 1 }

/-- A fixture store holding the one user and their namespace. -/
def cStore : Store :=
  { users := [cUser], sessions := [], namespaces := [cNamespace] }

/-- An empty fixture store. -/
def cStoreEmpty : Store :=
  { users := [], sessions := [], namespaces := [] }

/-- A fixture request context. -/
def cCtx : GinContext :=
  { clientIP := "9.9.9.9", host := "example.com", cookies := [] }

/-- A login request for the fixture user by email. -/
def cReq : LoginUserPayload :=
  { email := "a@x.y", password := "pw" }

/-- A session expiring exactly at time 100. -/
def cSession : Session :=
  { ownerID := 1, token := "tk", clientIP := "i", createdAt := 0, expiredAt := 100 }

/-- The fixture user together with the session expiring at 100. -/
def cStoreTok : Store :=
  { users := [cUser], sessions := [cSession], namespaces := [] }

/-- A soft-deleted user. -/
def cDeletedUser : User :=
  { id := 1, email := "d@x.y", encryptedPassword := "e", username := "du",
    name := "D", publicEmail := false, createdAt := 0, deletedAt := some 5,
    verifiedAt := some 1, lastLoginAt := none, lastLoginIP := none,
    registerIP := "r", isAdmin := false, namespaceID := 1 }

/-- A store whose only user is soft-deleted but holds a live session. -/
def cStoreDeleted : Store :=
  { users := [cDeletedUser],
    sessions := [{ ownerID := 1, token := "tk9", clientIP := "i", createdAt := 0,
                   expiredAt := 1000 }],
    namespaces := [] }

/-- The fixture store after a successful login at time 77 issuing token
`tok1`. -/
def cStoreAfter : Store :=
  { users := [{ cUser with lastLoginAt := some 77, lastLoginIP := some "9.9.9.9" }],
    sessions := [{ ownerID := 1, token := "tok1", clientIP := "9.9.9.9",
                   createdAt := 77, expiredAt := 77 + 24 * 60 * 60 * 30 }],
    namespaces := [cNamespace] }

/-- The fixture context after the successful login set the token cookie. -/
def cCtxAfter : GinContext :=
  { cCtx with
    cookies := [{ cookieName := "auth-user-token", value := "tok1",
                  maxAge := 0, cookiePath := "/", domain := "example.com",
                  secure := false, httpOnly := false }] }

/-- The fixture login response. -/
def cResult : UserLoginResult :=
  { token := "tok1", namespacePath := "alice", resultName := "Alice",
    email := "a@x.y", publicEmail := false }

/-! ## Helper lemmas on filtered heads -/

/-- The first row of a filtered list is absent iff no row satisfies the
filter. -/
theorem head_filter_none_iff {α : Type} (p : α → Bool) (l : List α) :
    (l.filter p).head? = none ↔ ∀ x ∈ l, p x = false := by
  rw [List.head?_eq_none_iff, List.filter_eq_nil_iff]
  simp

/-- The first row of a filtered list is a member satisfying the filter. -/
theorem head_filter_some {α : Type} {p : α → Bool} {l : List α} {u : α}
    (h : (l.filter p).head? = some u) : u ∈ l ∧ p u = true := by
  have hm : u ∈ l.filter p := List.mem_of_mem_head? (by simp [h])
  exact ⟨(List.mem_filter.mp hm).1, (List.mem_filter.mp hm).2⟩

/-- A matching member forces the filtered head to exist. -/
theorem head_filter_isSome {α : Type} {p : α → Bool} {l : List α} {x : α}
    (hx : x ∈ l) (hp : p x = true) : ∃ u, (l.filter p).head? = some u := by
  cases h : (l.filter p).head? with
  | some u => exact ⟨u, rfl⟩
  | none =>
    have := (head_filter_none_iff p l).mp h x hx
    rw [hp] at this
    exact absurd this (by simp)

/-- The filtered head exists iff some row satisfies the filter. -/
theorem head_filter_isSome_iff {α : Type} (p : α → Bool) (l : List α) :
    ((l.filter p).head?).isSome = true ↔ ∃ x ∈ l, p x = true := by
  constructor
  · intro h
    cases hh : (l.filter p).head? with
    | none => rw [hh] at h; simp at h
    | some u =>
      obtain ⟨hm, hp⟩ := head_filter_some hh
      exact ⟨u, hm, hp⟩
  · rintro ⟨x, hx, hp⟩
    obtain ⟨u, hu⟩ := head_filter_isSome hx hp
    simp [hu]

/-! ## Characterisations of the login flow -/

/-- `loginLookup` is the filtered-head lookup over the resolved credential
field. -/
theorem loginLookup_eq (st : Store) (ue : String) :
    loginLookup st ue = Except.ok (lookedUpUser st ue) := by
  cases h : containsAt ue <;>
    simp [loginLookup, lookedUpUser, credMatches, GetUserByEmail, GetUserByUsername,
      getUser, listUsersByCond, h]

/-- `validate` rejects with NotFound exactly when the lookup is empty. -/
theorem validate_notFound_iff (st : Store) (ue pw : String) :
    validate st ue pw = Except.error Err.notFound ↔ lookedUpUser st ue = none := by
  rw [validate, loginLookup_eq]
  cases h : lookedUpUser st ue with
  | none => simp
  | some u =>
    simp only []
    by_cases hv : u.Verified = false <;>
      by_cases hc : ComparePassword u.encryptedPassword pw = false <;>
        simp [hv, hc]

/-- `validate` rejects with AccessDenied exactly when the looked-up user is
unverified. -/
theorem validate_accessDenied_iff (st : Store) (ue pw : String) :
    validate st ue pw = Except.error Err.accessDenied ↔
      ∃ u, lookedUpUser st ue = some u ∧ u.verifiedAt = none := by
  rw [validate, loginLookup_eq]
  cases h : lookedUpUser st ue with
  | none => simp
  | some u =>
    by_cases hv : u.Verified = false
    · simp only [hv, if_true]
      simp [User.Verified, Option.isSome_iff_exists] at hv
      simp [hv]
    · by_cases hc : ComparePassword u.encryptedPassword pw = false <;>
        · simp only [hv, if_false, hc]
          constructor
          · intro hcontra; simp at hcontra
          · rintro ⟨v, hv2, hnone⟩
            cases hv2
            simp [User.Verified, hnone] at hv

/-- `validate` rejects with InvalidParameter exactly when the looked-up
user is verified but the password comparison fails. -/
theorem validate_invalidParameter_iff (st : Store) (ue pw : String) :
    validate st ue pw = Except.error Err.invalidParameter ↔
      ∃ u, lookedUpUser st ue = some u ∧ u.verifiedAt ≠ none ∧
        ComparePassword u.encryptedPassword pw = false := by
  rw [validate, loginLookup_eq]
  cases h : lookedUpUser st ue with
  | none => simp
  | some u =>
    by_cases hv : u.Verified = false
    · simp only [hv, if_true]
      constructor
      · intro hcontra; simp at hcontra
      · rintro ⟨v, hv2, hsome, _⟩
        cases hv2
        simp [User.Verified, Option.isSome_iff_ne_none, hsome] at hv
    · by_cases hc : ComparePassword u.encryptedPassword pw = false
      · simp only [hv, if_false, hc, if_true]
        refine ⟨fun _ => ⟨u, rfl, ?_, hc⟩, fun _ => rfl⟩
        simp only [Bool.not_eq_false, User.Verified, Option.isSome_iff_ne_none] at hv
        exact hv
      · simp only [hv, if_false, hc]
        constructor
        · intro hcontra; simp at hcontra
        · rintro ⟨v, hv2, _, hcmp⟩
          cases hv2
          exact absurd hcmp hc

/-- `validate` accepts exactly the looked-up, verified user under a
matching password. -/
theorem validate_ok_iff (st : Store) (ue pw : String) (u : User) :
    validate st ue pw = Except.ok u ↔
      lookedUpUser st ue = some u ∧ u.verifiedAt ≠ none ∧
        ComparePassword u.encryptedPassword pw = true := by
  rw [validate, loginLookup_eq]
  cases h : lookedUpUser st ue with
  | none => simp
  | some v =>
    by_cases hv : v.Verified = false
    · simp only [hv, if_true]
      constructor
      · intro hcontra; simp at hcontra
      · rintro ⟨hv2, hsome, _⟩
        cases hv2
        simp [User.Verified, Option.isSome_iff_ne_none, hsome] at hv
    · by_cases hc : ComparePassword v.encryptedPassword pw = false
      · simp only [hv, if_false, hc, if_true]
        constructor
        · intro hcontra; simp at hcontra
        · rintro ⟨hv2, _, hcmp⟩
          cases hv2
          rw [hcmp] at hc
          simp at hc
      · simp only [hv, if_false, hc]
        constructor
        · intro hok
          cases hok
          refine ⟨rfl, ?_, by simpa using hc⟩
          simp only [Bool.not_eq_false, User.Verified, Option.isSome_iff_ne_none] at hv
          exact hv
        · rintro ⟨hv2, _, _⟩
          cases hv2
          rfl

/-- Without injected engine faults the transaction body applies the
last-login update, appends exactly the fresh session, builds the response
and sets the token cookie. -/
theorem loginBody_no_faults (ctx : GinContext) (user : User) (st0 : Store) (now : Int)
    (newToken : String) (tx : Store) :
    loginBody ctx user st0 now newToken ⟨false, false⟩ tx =
      Except.ok
        ({ update tx (fun u => u.id == user.id)
            (fun u => { u with lastLoginAt := some now, lastLoginIP := some ctx.clientIP })
              with sessions := tx.sessions ++ [buildSession user.id ctx.clientIP newToken now] },
         SetCookie ctx tokenField newToken 0 "/" ctx.host false false,
         { token := newToken,
           namespacePath := ((userNamespace st0 user).map Namespace.path).getD "",
           resultName := user.name, email := user.email,
           publicEmail := user.publicEmail }) := rfl

/-- With an injected engine fault the transaction body surfaces the SQL
error of the failing statement. -/
theorem loginBody_fault_error (ctx : GinContext) (user : User) (st0 : Store) (now : Int)
    (newToken : String) (f : Faults) (tx : Store)
    (h : f.updateLoginFails = true ∨ f.addSessionFails = true) :
    loginBody ctx user st0 now newToken f tx = Except.error Err.sqlError := by
  rcases f with ⟨fu, fa⟩
  cases fu <;> cases fa
  · simp at h
  · rfl
  · rfl
  · rfl

/-! ## C1 -/

/-- The join predicate holds exactly when some session row matches the
token, has not yet passed its expiry, and points at the user. -/
theorem tokenJoins_iff (st : Store) (tok : String) (now : Int) (u : User) :
    tokenJoins st tok now u = true ↔
      ∃ s ∈ st.sessions, s.token = tok ∧ now ≤ s.expiredAt ∧ u.id = s.ownerID := by
  simp [tokenJoins, List.any_eq_true, and_assoc]

/-- C1 (amended): `GetUserByUserToken` returns a user iff a session with
that token exists whose expiry timestamp is still `≥ now` and whose owner
id matches a user row; any returned user is such a session's owner.  (The
original claim required strict `now < expired_at`; the query uses
`expired_at >= now`, so the boundary instant is still valid.) -/
theorem getUserByUserToken_valid_iff (st : Store) (tok : String) (now : Int) :
    ((∃ u, GetUserByUserToken st tok now = Except.ok (some u)) ↔
      ∃ s ∈ st.sessions, s.token = tok ∧ now ≤ s.expiredAt ∧
        ∃ u ∈ st.users, u.id = s.ownerID)
    ∧ ∀ u, GetUserByUserToken st tok now = Except.ok (some u) →
        u ∈ st.users ∧ ∃ s ∈ st.sessions, s.token = tok ∧ now ≤ s.expiredAt ∧
          u.id = s.ownerID := by
  constructor
  · constructor
    · rintro ⟨u, hu⟩
      simp only [GetUserByUserToken, Except.ok.injEq] at hu
      obtain ⟨hmem, hp⟩ := head_filter_some hu
      obtain ⟨s, hs, h1, h2, h3⟩ := (tokenJoins_iff st tok now u).mp hp
      exact ⟨s, hs, h1, h2, u, hmem, h3⟩
    · rintro ⟨s, hs, h1, h2, u, hu, h3⟩
      obtain ⟨v, hv⟩ := head_filter_isSome hu
        ((tokenJoins_iff st tok now u).mpr ⟨s, hs, h1, h2, h3⟩)
      exact ⟨v, by simp [GetUserByUserToken, hv]⟩
  · intro u hu
    simp only [GetUserByUserToken, Except.ok.injEq] at hu
    obtain ⟨hmem, hp⟩ := head_filter_some hu
    obtain ⟨s, hs, h1, h2, h3⟩ := (tokenJoins_iff st tok now u).mp hp
    exact ⟨hmem, s, hs, h1, h2, h3⟩

/-- C1 counterexample: at the instant exactly equal to the session's
expiry timestamp the lookup still returns the user, not none — refuting
"at a time equal to the expired timestamp the lookup returns no user". -/
theorem getUserByUserToken_at_expiry_cex :
    GetUserByUserToken cStoreTok "tk" 100 ≠ Except.ok none := by decide

/-- Witness for `getUserByUserToken_valid_iff` at the fixture store. -/
theorem getUserByUserToken_valid_iff_witness :
    (∃ s ∈ cStoreTok.sessions, s.token = "tk" ∧ (100 : Int) ≤ s.expiredAt ∧
      ∃ u ∈ cStoreTok.users, u.id = s.ownerID)
    ∧ (cUser ∈ cStoreTok.users ∧ ∃ s ∈ cStoreTok.sessions, s.token = "tk" ∧
        (100 : Int) ≤ s.expiredAt ∧ cUser.id = s.ownerID) :=
  ⟨(getUserByUserToken_valid_iff cStoreTok "tk" 100).1.mp ⟨cUser, by decide⟩,
   (getUserByUserToken_valid_iff cStoreTok "tk" 100).2 cUser (by decide)⟩

/-! ## C9 -/

/-- C9 (amended): when no normal user matches the id, the username or the
email, `GetUser`, `GetUserByUsername` and `GetUserByEmail` return a nil
user with a nil error; `GetUserByUserToken` does so when no user row at
all — the token join applies no normal-user filter — is joined through a
session with that token and `expired_at ≥ now`.  Absence is signalled by
nil, never by a NotFound error. -/
theorem lookups_absence (st : Store) (id : Int) (un em tok : String) (now : Int)
    (h1 : ∀ u ∈ st.users, NormalUser u = true → u.id ≠ id)
    (h2 : ∀ u ∈ st.users, NormalUser u = true → u.username ≠ un)
    (h3 : ∀ u ∈ st.users, NormalUser u = true → u.email ≠ em)
    (h4 : ∀ u ∈ st.users, ∀ s ∈ st.sessions,
      ¬(s.token = tok ∧ now ≤ s.expiredAt ∧ u.id = s.ownerID)) :
    GetUser st id = Except.ok none ∧ GetUserByUsername st un = Except.ok none ∧
      GetUserByEmail st em = Except.ok none ∧
      GetUserByUserToken st tok now = Except.ok none := by
  refine ⟨?_, ?_, ?_, ?_⟩
  · simp only [GetUser, getUser, listUsersByCond, Except.ok.injEq]
    rw [head_filter_none_iff]
    intro u hu
    cases hn : NormalUser u
    · simp
    · simp [hn, h1 u hu hn]
  · simp only [GetUserByUsername, getUser, listUsersByCond, Except.ok.injEq]
    rw [head_filter_none_iff]
    intro u hu
    cases hn : NormalUser u
    · simp
    · simp [hn, h2 u hu hn]
  · simp only [GetUserByEmail, getUser, listUsersByCond, Except.ok.injEq]
    rw [head_filter_none_iff]
    intro u hu
    cases hn : NormalUser u
    · simp
    · simp [hn, h3 u hu hn]
  · simp only [GetUserByUserToken, Except.ok.injEq]
    rw [head_filter_none_iff]
    intro u hu
    cases hj : tokenJoins st tok now u
    · rfl
    · obtain ⟨s, hs, hp1, hp2, hp3⟩ := (tokenJoins_iff st tok now u).mp hj
      exact absurd ⟨hp1, hp2, hp3⟩ (h4 u hu s hs)

/-- C9 counterexample: the fixture store's only user is soft-deleted (no
normal user matches anything), yet the token lookup — which omits the
normal-user filter — still returns that user rather than none. -/
theorem getUserByUserToken_deleted_user_cex :
    (cStoreDeleted.users.all fun u => !(NormalUser u)) = true ∧
      GetUserByUserToken cStoreDeleted "tk9" 50 ≠ Except.ok none := by decide

/-- Witness for `lookups_absence` at the fixture store with unmatched
arguments. -/
theorem lookups_absence_witness :
    GetUser cStore 2 = Except.ok none ∧
      GetUserByUsername cStore "bob" = Except.ok none ∧
      GetUserByEmail cStore "b@x.y" = Except.ok none ∧
      GetUserByUserToken cStore "no" 0 = Except.ok none :=
  lookups_absence cStore 2 "bob" "b@x.y" "no" 0
    (by decide) (by decide) (by decide) (by decide)

/-! ## C3 -/

/-- A `Login` outcome `(ctx, st, error e)` with a non-SQL error kind is
exactly a `validate` rejection with that kind. -/
theorem login_error_iff (ctx : GinContext) (st : Store) (req : LoginUserPayload)
    (now : Int) (newToken : String) (f : Faults) (e : Err)
    (he : e ≠ Err.sqlError) :
    Login ctx st req now newToken f = (ctx, st, Except.error e) ↔
      validate st req.email req.password = Except.error e := by
  cases hv : validate st req.email req.password with
  | error e2 =>
    have hL : Login ctx st req now newToken f = (ctx, st, Except.error e2) := by
      simp [Login, hv]
    rw [hL]
    simp
  | ok user =>
    rcases f with ⟨fu, fa⟩
    cases fu <;> cases fa
    · have hL : Login ctx st req now newToken ⟨false, false⟩ =
          (SetCookie ctx tokenField newToken 0 "/" ctx.host false false,
           { update st (fun u => u.id == user.id)
              (fun u => { u with lastLoginAt := some now, lastLoginIP := some ctx.clientIP })
                with sessions := st.sessions ++ [buildSession user.id ctx.clientIP newToken now] },
           Except.ok
             { token := newToken,
               namespacePath := ((userNamespace st user).map Namespace.path).getD "",
               resultName := user.name, email := user.email,
               publicEmail := user.publicEmail }) := by
        simp [Login, hv, Transact, loginBody_no_faults]
      rw [hL]
      simp
    · have hb := loginBody_fault_error ctx user st now newToken ⟨false, true⟩ st (Or.inr rfl)
      have hL : Login ctx st req now newToken ⟨false, true⟩ =
          (ctx, st, Except.error Err.sqlError) := by
        simp [Login, hv, Transact, hb]
      rw [hL]
      simp [Ne.symm he]
    · have hb := loginBody_fault_error ctx user st now newToken ⟨true, false⟩ st (Or.inl rfl)
      have hL : Login ctx st req now newToken ⟨true, false⟩ =
          (ctx, st, Except.error Err.sqlError) := by
        simp [Login, hv, Transact, hb]
      rw [hL]
      simp [Ne.symm he]
    · have hb := loginBody_fault_error ctx user st now newToken ⟨true, true⟩ st (Or.inl rfl)
      have hL : Login ctx st req now newToken ⟨true, true⟩ =
          (ctx, st, Except.error Err.sqlError) := by
        simp [Login, hv, Transact, hb]
      rw [hL]
      simp [Ne.symm he]

/-- C3 (confirmed): login failures are decided in a fixed precedence —
NotFound exactly when no normal user matches the resolved credential,
AccessDenied exactly when the matched user's verified timestamp is null
(for any password), InvalidParameter exactly when the matched user is
verified but the password hash comparison fails. -/
theorem login_failure_precedence (ctx : GinContext) (st : Store)
    (req : LoginUserPayload) (now : Int) (newToken : String) (f : Faults) :
    (Login ctx st req now newToken f = (ctx, st, Except.error Err.notFound) ↔
      ∀ u ∈ st.users, NormalUser u = true → credMatches req.email u = false)
    ∧ (Login ctx st req now newToken f = (ctx, st, Except.error Err.accessDenied) ↔
      ∃ u, lookedUpUser st req.email = some u ∧ u.verifiedAt = none)
    ∧ (Login ctx st req now newToken f = (ctx, st, Except.error Err.invalidParameter) ↔
      ∃ u, lookedUpUser st req.email = some u ∧ u.verifiedAt ≠ none ∧
        ComparePassword u.encryptedPassword req.password = false) := by
  refine ⟨?_, ?_, ?_⟩
  · rw [login_error_iff ctx st req now newToken f Err.notFound (by decide),
      validate_notFound_iff]
    simp only [lookedUpUser]
    rw [head_filter_none_iff]
    constructor
    · intro h u hu hn
      have := h u hu
      simpa [hn] using this
    · intro h u hu
      cases hn : NormalUser u
      · simp
      · simp [hn, h u hu hn]
  · rw [login_error_iff ctx st req now newToken f Err.accessDenied (by decide),
      validate_accessDenied_iff]
  · rw [login_error_iff ctx st req now newToken f Err.invalidParameter (by decide),
      validate_invalidParameter_iff]

/-- Witness for `login_failure_precedence`: the empty store has no
matching user, so login fails with NotFound. -/
theorem login_failure_precedence_witness :
    Login cCtx cStoreEmpty cReq 0 "t1" ⟨false, false⟩ =
      (cCtx, cStoreEmpty, Except.error Err.notFound) :=
  (login_failure_precedence cCtx cStoreEmpty cReq 0 "t1" ⟨false, false⟩).1.mpr
    (by decide)

/-! ## C2 -/

/-- C2 (confirmed): whenever `Login` returns an error — a validation
rejection or a failure of any transaction step — the store is left exactly
as it was: neither the last-login update nor the session insert survives
(and no cookie is set either). -/
theorem login_rolls_back_on_failure (ctx : GinContext) (st : Store)
    (req : LoginUserPayload) (now : Int) (newToken : String) (f : Faults) (e : Err)
    (h : (Login ctx st req now newToken f).2.2 = Except.error e) :
    (Login ctx st req now newToken f).2.1 = st ∧
      (Login ctx st req now newToken f).1 = ctx := by
  cases hv : validate st req.email req.password with
  | error e2 => simp [Login, hv]
  | ok user =>
    rcases f with ⟨fu, fa⟩
    cases fu <;> cases fa
    · simp [Login, hv, Transact, loginBody_no_faults] at h
    · have hb := loginBody_fault_error ctx user st now newToken ⟨false, true⟩ st (Or.inr rfl)
      simp [Login, hv, Transact, hb]
    · have hb := loginBody_fault_error ctx user st now newToken ⟨true, false⟩ st (Or.inl rfl)
      simp [Login, hv, Transact, hb]
    · have hb := loginBody_fault_error ctx user st now newToken ⟨true, true⟩ st (Or.inl rfl)
      simp [Login, hv, Transact, hb]

/-- Witness for `login_rolls_back_on_failure`: valid credentials with a
failing last-login UPDATE leave the fixture store and context untouched. -/
theorem login_rolls_back_on_failure_witness :
    (Login cCtx cStore cReq 77 "tok1" ⟨true, false⟩).2.1 = cStore ∧
      (Login cCtx cStore cReq 77 "tok1" ⟨true, false⟩).1 = cCtx :=
  login_rolls_back_on_failure cCtx cStore cReq 77 "tok1" ⟨true, false⟩
    Err.sqlError (by decide)

/-! ## C4 -/

/-- C4 (confirmed): for credentials resolving to a normal, verified user
whose stored hash matches the password, `Login` succeeds and its result
token is the token of the single newly inserted session row, whose owner
id is that user's id. -/
theorem login_success (ctx : GinContext) (st : Store) (req : LoginUserPayload)
    (now : Int) (newToken : String) (u : User)
    (h1 : lookedUpUser st req.email = some u)
    (h2 : u.Verified = true)
    (h3 : ComparePassword u.encryptedPassword req.password = true) :
    ∃ ctx2 st2 r,
      Login ctx st req now newToken ⟨false, false⟩ = (ctx2, st2, Except.ok r) ∧
      r.token = newToken ∧
      st2.sessions = st.sessions ++ [buildSession u.id ctx.clientIP newToken now] ∧
      (buildSession u.id ctx.clientIP newToken now).ownerID = u.id ∧
      (buildSession u.id ctx.clientIP newToken now).token = newToken := by
  have hv : validate st req.email req.password = Except.ok u :=
    (validate_ok_iff st req.email req.password u).mpr
      ⟨h1, by simpa [User.Verified, Option.isSome_iff_ne_none] using h2, h3⟩
  refine ⟨SetCookie ctx tokenField newToken 0 "/" ctx.host false false,
    { update st (fun v => v.id == u.id)
        (fun v => { v with lastLoginAt := some now, lastLoginIP := some ctx.clientIP })
          with sessions := st.sessions ++ [buildSession u.id ctx.clientIP newToken now] },
    { token := newToken,
      namespacePath := ((userNamespace st u).map Namespace.path).getD "",
      resultName := u.name, email := u.email, publicEmail := u.publicEmail },
    ?_, rfl, rfl, rfl, rfl⟩
  simp [Login, hv, Transact, loginBody_no_faults]

/-- Witness for `login_success` at the fixture store. -/
theorem login_success_witness :
    ∃ ctx2 st2 r,
      Login cCtx cStore cReq 77 "tok1" ⟨false, false⟩ = (ctx2, st2, Except.ok r) ∧
      r.token = "tok1" ∧
      st2.sessions = cStore.sessions ++ [buildSession cUser.id cCtx.clientIP "tok1" 77] ∧
      (buildSession cUser.id cCtx.clientIP "tok1" 77).ownerID = cUser.id ∧
      (buildSession cUser.id cCtx.clientIP "tok1" 77).token = "tok1" :=
  login_success cCtx cStore cReq 77 "tok1" cUser (by decide) (by decide) (by decide)

/-! ## C6 -/

/-- C6 (confirmed): every successful login sets exactly one cookie, named
auth-user-token, valued with the new session token, on path /, with the
request host as domain, max-age zero and the secure and http-only flags
cleared, while the inserted session row expires 30 days (in seconds)
after issuance. -/
theorem login_sets_token_cookie (ctx : GinContext) (st : Store)
    (req : LoginUserPayload) (now : Int) (newToken : String) (f : Faults)
    (ctx2 : GinContext) (st2 : Store) (r : UserLoginResult)
    (h : Login ctx st req now newToken f = (ctx2, st2, Except.ok r)) :
    ctx2.cookies = ctx.cookies ++
      [{ cookieName := "auth-user-token", value := r.token, maxAge := 0,
         cookiePath := "/", domain := ctx.host, secure := false,
         httpOnly := false }] ∧
    ∃ sess, st2.sessions = st.sessions ++ [sess] ∧ sess.token = r.token ∧
      sess.expiredAt = now + 24 * 60 * 60 * 30 := by
  cases hv : validate st req.email req.password with
  | error e2 => simp [Login, hv] at h
  | ok user =>
    rcases f with ⟨fu, fa⟩
    cases fu <;> cases fa
    · simp only [Login, hv, Transact, loginBody_no_faults, Prod.mk.injEq,
        Except.ok.injEq] at h
      obtain ⟨hctx, hst, hr⟩ := h
      subst hctx
      subst hst
      subst hr
      refine ⟨by simp [SetCookie, tokenField], buildSession user.id ctx.clientIP newToken now,
        rfl, rfl, rfl⟩
    · have hb := loginBody_fault_error ctx user st now newToken ⟨false, true⟩ st (Or.inr rfl)
      simp [Login, hv, Transact, hb] at h
    · have hb := loginBody_fault_error ctx user st now newToken ⟨true, false⟩ st (Or.inl rfl)
      simp [Login, hv, Transact, hb] at h
    · have hb := loginBody_fault_error ctx user st now newToken ⟨true, true⟩ st (Or.inl rfl)
      simp [Login, hv, Transact, hb] at h

/-- Witness for `login_sets_token_cookie` at the fixture login. -/
theorem login_sets_token_cookie_witness :
    cCtxAfter.cookies = cCtx.cookies ++
      [{ cookieName := "auth-user-token", value := cResult.token, maxAge := 0,
         cookiePath := "/", domain := cCtx.host, secure := false,
         httpOnly := false }] ∧
    ∃ sess, cStoreAfter.sessions = cStore.sessions ++ [sess] ∧
      sess.token = cResult.token ∧
      sess.expiredAt = 77 + 24 * 60 * 60 * 30 :=
  login_sets_token_cookie cCtx cStore cReq 77 "tok1" ⟨false, false⟩
    cCtxAfter cStoreAfter cResult (by decide)

/-! ## C7 -/

/-- C7 (amended): for uint64 arguments, `ListAllUsers` selects only
normal users, skips the first page × per of them with the offset product
computed in Go's uint64 arithmetic — that is, (page × per) mod 2^64 — and
returns at most per rows; the row at index i of the result is the normal
user at index (page × per) mod 2^64 + i of the store's default
(insertion) order, so for page = 1, per = 10 the offset is exactly 10 and
the result is the 11th through 20th normal users. -/
theorem listAllUsers_paginates (st : Store) (page per i : Nat)
    (_hpage : page < 2 ^ 64) (_hper : per < 2 ^ 64) :
    ∃ l, ListAllUsers st page per = Except.ok l ∧
      l.length = min per ((st.users.filter NormalUser).length - (page * per) % 2 ^ 64) ∧
      l[i]? = (if i < per then
                 (st.users.filter NormalUser)[(page * per) % 2 ^ 64 + i]?
               else none) := by
  refine ⟨_, rfl, ?_, ?_⟩
  · simp [List.length_take, List.length_drop]
  · by_cases h : i < per
    · rw [if_pos h, List.getElem?_take_of_lt h, List.getElem?_drop]
    · rw [if_neg h]
      apply List.getElem?_eq_none
      exact le_trans (List.length_take_le per _) (Nat.le_of_not_lt h)

/-- C7 counterexample: at page = per = 2^33 the uint64 offset product
wraps to zero, so the one-user fixture store's normal user is returned;
under unbounded arithmetic the first 2^66 normal users would be skipped
and the result would be empty — refuting "skips the first page × per of
them" read over unbounded products. -/
theorem listAllUsers_wrap_cex :
    ListAllUsers cStore 8589934592 8589934592 ≠
      Except.ok
        (((cStore.users.filter NormalUser).drop
          (8589934592 * 8589934592)).take 8589934592) := by decide

/-- Witness for `listAllUsers_paginates` on the fixture store. -/
theorem listAllUsers_paginates_witness :
    ∃ l, ListAllUsers cStore 0 1 = Except.ok l ∧
      l.length = min 1 ((cStore.users.filter NormalUser).length - (0 * 1) % 2 ^ 64) ∧
      l[0]? = (if 0 < 1 then
                 (cStore.users.filter NormalUser)[(0 * 1) % 2 ^ 64 + 0]?
               else none) :=
  listAllUsers_paginates cStore 0 1 0 (by decide) (by decide)

/-! ## C8 -/

/-- C8 (confirmed): `ActivateUser` is idempotent — a second activation at
any later time changes nothing — because the row transformation sets the
verified timestamp only on an inactive row, leaves an already-verified row
unchanged, and never touches rows with a different id. -/
theorem activateUser_idempotent (st : Store) (userID now now2 : Int) :
    ActivateUser (ActivateUser st userID now) userID now2 =
        ActivateUser st userID now ∧
      (∀ u : User, u.verifiedAt.isSome = true → activateRow userID now2 u = u) ∧
      (∀ u : User, u.id = userID → u.verifiedAt = none →
        (activateRow userID now u).verifiedAt = some now) := by
  have hrow : ∀ u, activateRow userID now2 (activateRow userID now u) =
      activateRow userID now u := by
    intro u
    cases hv : u.verifiedAt with
    | some t => simp [activateRow, InactivateUser, hv]
    | none =>
      cases hid : (u.id == userID)
      · simp [activateRow, InactivateUser, hv, hid]
      · simp [activateRow, InactivateUser, hv, hid]
  refine ⟨?_, ?_, ?_⟩
  · have hfun : (fun u => activateRow userID now2 (activateRow userID now u)) =
        activateRow userID now := funext hrow
    simp only [ActivateUser, List.map_map, Function.comp_def, hfun]
  · intro u h
    cases hv : u.verifiedAt with
    | none => rw [hv] at h; simp at h
    | some t => simp [activateRow, InactivateUser, hv]
  · intro u hid hv
    simp [activateRow, InactivateUser, hv, hid]

/-- Witness for `activateUser_idempotent` at the fixture store and user. -/
theorem activateUser_idempotent_witness :
    ActivateUser (ActivateUser cStore 1 5) 1 9 = ActivateUser cStore 1 5 ∧
      activateRow 1 9 cUser = cUser ∧
      (activateRow 1 5 { cUser with verifiedAt := none }).verifiedAt = some 5 :=
  ⟨(activateUser_idempotent cStore 1 5 9).1,
   (activateUser_idempotent cStore 1 5 9).2.1 cUser (by decide),
   (activateUser_idempotent cStore 1 5 9).2.2 { cUser with verifiedAt := none }
     (by decide) rfl⟩

/-! ## C10 -/

/-- `setNsFirst` preserves the id column. -/
theorem setNsFirst_map_id (users : List User) (n : Namespace) :
    (setNsFirst users n).map User.id = users.map User.id := by
  induction users with
  | nil => rfl
  | cons u rest ih =>
    cases h : (u.id == n.ownerID)
    · simp [setNsFirst, h, ih]
    · simp [setNsFirst, h]

/-- `setNsLast` preserves the id column. -/
theorem setNsLast_map_id (users : List User) (n : Namespace) :
    (setNsLast users n).map User.id = users.map User.id := by
  simp [setNsLast, List.map_reverse, setNsFirst_map_id]

/-- The fill loop completes whenever every namespace's owner id is among
the users' ids. -/
theorem fillLoop_isSome (nss : List Namespace) (users : List User)
    (h : ∀ n ∈ nss, n.ownerID ∈ users.map User.id) :
    (fillLoop users nss).isSome = true := by
  induction nss generalizing users with
  | nil => rfl
  | cons n rest ih =>
    have hmem : n.ownerID ∈ users.map User.id := h n (List.mem_cons_self n rest)
    have hany : users.any (fun u => u.id == n.ownerID) = true := by
      rw [List.any_eq_true]
      obtain ⟨u, hu, hid⟩ := List.mem_map.mp hmem
      exact ⟨u, hu, by simp [hid]⟩
    simp only [fillLoop, hany, if_true]
    exact ih (setNsLast users n) (fun m hm => by
      rw [setNsLast_map_id]
      exact h m (List.mem_cons_of_mem n hm))

/-- C10 (confirmed): when every namespace fetched for the collected user
ids belongs to one of those users, `fillNamespaceInUsers` completes
without ever dereferencing a nil map entry. -/
theorem fillNamespaceInUsers_no_nil_deref (st : Store) (users : List User)
    (h : ∀ n ∈ ListNamespacesByOwner st TypeUser (users.map User.id),
      n.ownerID ∈ users.map User.id) :
    (fillNamespaceInUsers st users).isSome = true :=
  fillLoop_isSome _ users h

/-- Witness for `fillNamespaceInUsers_no_nil_deref` on the fixture store. -/
theorem fillNamespaceInUsers_no_nil_deref_witness :
    (fillNamespaceInUsers cStore [cUser]).isSome = true :=
  fillNamespaceInUsers_no_nil_deref cStore [cUser] (by decide)

/-! ## C5 -/

/-- `ExistsEmailOrUsername` evaluates to the disjunction of the two
guarded lookups. -/
theorem existsEmailOrUsername_eval (st : Store) (username email : String) :
    ExistsEmailOrUsername st username email =
      Except.ok
        ((decide (0 < username.length) &&
            ((st.users.filter (fun u => u.username == username && NormalUser u)).head?).isSome) ||
          (decide (0 < email.length) &&
            ((st.users.filter (fun u => u.email == email && NormalUser u)).head?).isSome)) := by
  by_cases h1 : 0 < username.length <;> by_cases h2 : 0 < email.length <;>
    cases hh1 : (st.users.filter (fun u => u.username == username && NormalUser u)).head? <;>
      cases hh2 : (st.users.filter (fun u => u.email == email && NormalUser u)).head? <;>
        simp [ExistsEmailOrUsername, getUser, listUsersByCond, h1, h2, hh1, hh2]

/-- C5 (confirmed): `ExistsEmailOrUsername` reports true exactly when some
normal (non-deleted) user row matches the non-empty username argument or
the non-empty email argument, and false otherwise — in particular false
when the only matching rows are soft-deleted. -/
theorem existsEmailOrUsername_iff (st : Store) (username email : String) :
    (ExistsEmailOrUsername st username email = Except.ok true ↔
      ∃ u ∈ st.users, NormalUser u = true ∧
        ((0 < username.length ∧ u.username = username) ∨
          (0 < email.length ∧ u.email = email)))
    ∧ (ExistsEmailOrUsername st username email = Except.ok false ↔
      ¬ ∃ u ∈ st.users, NormalUser u = true ∧
        ((0 < username.length ∧ u.username = username) ∨
          (0 < email.length ∧ u.email = email))) := by
  have key : (ExistsEmailOrUsername st username email = Except.ok true) ↔
      ∃ u ∈ st.users, NormalUser u = true ∧
        ((0 < username.length ∧ u.username = username) ∨
          (0 < email.length ∧ u.email = email)) := by
    rw [existsEmailOrUsername_eval]
    simp only [Except.ok.injEq, Bool.or_eq_true, Bool.and_eq_true, decide_eq_true_eq,
      head_filter_isSome_iff]
    constructor
    · rintro (⟨hl, u, hu, hm⟩ | ⟨hl, u, hu, hm⟩) <;>
        simp only [Bool.and_eq_true, beq_iff_eq] at hm
      · exact ⟨u, hu, hm.2, Or.inl ⟨hl, hm.1⟩⟩
      · exact ⟨u, hu, hm.2, Or.inr ⟨hl, hm.1⟩⟩
    · rintro ⟨u, hu, hn, (⟨hl, hm⟩ | ⟨hl, hm⟩)⟩
      · exact Or.inl ⟨hl, u, hu, by simp [hm, hn]⟩
      · exact Or.inr ⟨hl, u, hu, by simp [hm, hn]⟩
  refine ⟨key, ?_⟩
  rw [← key]
  rw [existsEmailOrUsername_eval]
  simp only [Except.ok.injEq]
  constructor
  · intro h
    rw [h]
    simp
  · intro h
    cases hb : ((decide (0 < username.length) &&
        ((st.users.filter (fun u => u.username == username && NormalUser u)).head?).isSome) ||
      (decide (0 < email.length) &&
        ((st.users.filter (fun u => u.email == email && NormalUser u)).head?).isSome))
    · rfl
    · exact absurd hb h

/-- Witness for `existsEmailOrUsername_iff`: the fixture username exists,
so the check reports true. -/
theorem existsEmailOrUsername_iff_witness :
    ExistsEmailOrUsername cStore "alice" "" = Except.ok true :=
  (existsEmailOrUsername_iff cStore "alice" "").1.mpr (by decide)
